import Mathlib

/-!
# Timesheet backend: shallow embedding of the KV-store route handlers

This file embeds the Hono/Deno request-handling layer of the timesheet
application (the server module registering the routes under
/make-server-3af6643f/...) as pure Lean functions over an explicit
key-value store, and proves the spec's index-consistency and
authorization properties about those functions.

Conventions used throughout:
* JS records become Lean structures; absent/`null` fields become `Option`.
* ISO date strings compared via `new Date(_) > new Date()` become `Nat`
  millisecond timestamps compared against a `now : Nat` parameter.
* JS truthiness tests on strings (`if (inviteCode)`) become `strTruthy`;
  on numbers-or-null (`!c.maxUses`) the zero-is-falsy behaviour is kept.
* Externally generated identifiers (Supabase auth user ids, the
  `Date.now()`/`Math.random()` id strings, `toISOString()` stamps) are
  passed to the handler as explicit parameters.
* `verifyUser` is an external identity call; each protected handler
  receives `auth : Option String`, `none` standing for a failed
  verification (the 401 short-circuit).
-/

/-- A user record, stored under `users:{userId}`. -/
structure UserRec where
  id : String
  email : String
  name : String
  role : String
  orgId : Option String
  createdAt : String
deriving DecidableEq, Repr

/-- An organization record, stored under `organizations:{orgId}`. -/
structure OrgRec where
  id : String
  name : String
  createdAt : String
  createdBy : String
deriving DecidableEq, Repr

/-- A project record, stored under `projects:{projectId}`. -/
structure ProjectRec where
  id : String
  name : String
  description : String
  orgId : Option String
  assignedUsers : List String
  createdAt : String
  createdBy : String
deriving DecidableEq, Repr

/-- A timesheet entry, stored under `timesheets:{id}`. -/
structure TimesheetRec where
  id : String
  userId : String
  projectId : String
  taskName : String
  startTime : String
  endTime : String
  duration : Int
  notes : String
  beforePhotoUrl : Option String
  afterPhotoUrl : Option String
  createdAt : String
deriving DecidableEq, Repr

/-- An invite code record, stored under `invite-codes:{id}`.
`expiresAt` is kept as a millisecond timestamp (`none` = JS `null`). -/
structure InviteRec where
  id : String
  code : String
  orgId : Option String
  createdBy : String
  createdAt : String
  expiresAt : Option Nat
  maxUses : Option Nat
  currentUses : Nat
  isActive : Bool
deriving DecidableEq, Repr

/-- The probe value `{ message: 'Hello from test', timestamp: Date.now() }`
written by the `GET /test-database` debug route. -/
structure TestRec where
  message : String
  timestamp : Nat
deriving DecidableEq, Repr

/-- The key namespaces the handlers read and write.  Each constructor
records the exact string key built in the source; `Key.render` below
gives that string, and `render` is proved injective, so a store keyed by
`Key` is faithful to the flat string-keyed store. -/
inductive Key where
  | users (id : String)
  | userOrg (id : String)
  | orgUsers (orgId : String)
  | orgsUsersAlt (orgId : String)
  | organizations (orgId : String)
  | orgProjects (orgId : String)
  | orgCodes (orgId : String)
  | projects (id : String)
  | timesheets (id : String)
  | userTimesheets (id : String)
  | inviteCodes (id : String)
  | testKey (id : String)
deriving DecidableEq, Repr

/-- The exact string key each `Key` stands for in the source.
`orgsUsersAlt` is the literal `orgs:${orgId}:users` template that the
DELETE `/users/:userId` handler uses for its index removal. -/
def Key.render : Key → String
  | .users id => "users:" ++ id
  | .userOrg id => "user-org:" ++ id
  | .orgUsers orgId => "org-users:" ++ orgId
  | .orgsUsersAlt orgId => "orgs:" ++ (orgId ++ ":users")
  | .organizations orgId => "organizations:" ++ orgId
  | .orgProjects orgId => "org-projects:" ++ orgId
  | .orgCodes orgId => "org-invite-codes:" ++ orgId
  | .projects id => "projects:" ++ id
  | .timesheets id => "timesheets:" ++ id
  | .userTimesheets id => "user-timesheets:" ++ id
  | .inviteCodes id => "invite-codes:" ++ id
  | .testKey id => "test-key-" ++ id

/-- Stored values: entity records, id-list indexes, and the plain string
stored under `user-org:{userId}`. -/
inductive Val where
  | vUser (u : UserRec)
  | vOrg (o : OrgRec)
  | vProject (p : ProjectRec)
  | vTimesheet (t : TimesheetRec)
  | vCode (c : InviteRec)
  | vIds (l : List String)
  | vStr (s : String)
  | vTest (t : TestRec)
deriving DecidableEq, Repr

/-- Modelled from the spec: the key-value adapter (`kv_store.tsx`,
imported by the server but not among the sources) provides plain
`get`/`set`/`del`/`mget`/`getByPrefix` over string keys (spec §2, §4.2:
"generic get/set/delete/prefix-scan/multi-get operations over string
keys", one row per key).  The store is an association list in insertion
order; `set` upserts. -/
abbrev Store : Type := List (Key × Val)

/-- `kv.get`. -/
def kvGet : Store → Key → Option Val
  | [], _ => none
  | e :: es, k => if e.1 = k then some e.2 else kvGet es k

/-- Does the store hold an entry for `k`? -/
def kvHas : Store → Key → Bool
  | [], _ => false
  | e :: es, k => e.1 = k || kvHas es k

/-- Replace the value at `k` in place. -/
def kvReplace : Store → Key → Val → Store
  | [], _, _ => []
  | e :: es, k, v => if e.1 = k then (k, v) :: kvReplace es k v else e :: kvReplace es k v

/-- `kv.set`: upsert, keeping position for an existing key. -/
def kvSet (s : Store) (k : Key) (v : Val) : Store :=
  if kvHas s k then kvReplace s k v else s ++ [(k, v)]

/-- `kv.del`. -/
def kvDel : Store → Key → Store
  | [], _ => []
  | e :: es, k => if e.1 = k then kvDel es k else e :: kvDel es k

/-- Read the user record stored under `users:{id}` (if any). -/
def getUser (s : Store) (id : String) : Option UserRec :=
  match kvGet s (Key.users id) with
  | some (Val.vUser u) => some u
  | _ => none

/-- Read the project record stored under `projects:{id}` (if any). -/
def getProject (s : Store) (id : String) : Option ProjectRec :=
  match kvGet s (Key.projects id) with
  | some (Val.vProject p) => some p
  | _ => none

/-- Read the timesheet record stored under `timesheets:{id}` (if any). -/
def getTs (s : Store) (id : String) : Option TimesheetRec :=
  match kvGet s (Key.timesheets id) with
  | some (Val.vCode _) => none
  | some (Val.vTimesheet t) => some t
  | _ => none

/-- Read the invite-code record stored under `invite-codes:{id}` (if any). -/
def getCode (s : Store) (id : String) : Option InviteRec :=
  match kvGet s (Key.inviteCodes id) with
  | some (Val.vCode c) => some c
  | _ => none

/-- `kv.get(key) || []`: a stored id-list, or the empty list. -/
def getIds (s : Store) (k : Key) : List String :=
  match kvGet s k with
  | some (Val.vIds l) => l
  | _ => []

/-- JS truthiness of an optional string (`undefined`/`null` and `""` are
falsy). -/
def strTruthy : Option String → Bool
  | none => false
  | some s => s != ""

/-- JS template-literal interpolation of a value that may be `null`
(`${null}` renders as the string `"null"`). -/
def interp : Option String → String
  | none => "null"
  | some s => s

/-- `!c.expiresAt || new Date(c.expiresAt) > new Date()`. -/
def notExpired (c : InviteRec) (now : Nat) : Bool :=
  match c.expiresAt with
  | none => true
  | some e => now < e

/-- `!c.maxUses || c.currentUses < c.maxUses` (JS: `0` is falsy, so a
stored `maxUses` of `0` would count as no limit). -/
def hasUsesLeft (c : InviteRec) : Bool :=
  match c.maxUses with
  | none => true
  | some m => m == 0 || c.currentUses < m

/-- The `find` callback of the signup invite-code branch:
`c.code === inviteCode && c.isActive && notExpired && hasUsesLeft`. -/
def inviteValid (codeStr : String) (now : Nat) (c : InviteRec) : Bool :=
  c.code == codeStr && c.isActive && notExpired c now && hasUsesLeft c

/-- `kv.getByPrefix('invite-codes:')`: every invite-code record in the
store, in store order. -/
def scanCodes : Store → List InviteRec
  | [] => []
  | (Key.inviteCodes _, Val.vCode c) :: es => c :: scanCodes es
  | _ :: es => scanCodes es

/-- The `if (orgId) { ... }` epilogue of the signup handler: record the
user's org and append the user to `org-users:{orgId}`. -/
def finishOrg (s : Store) (orgId : Option String) (uid : String) : Store :=
  if strTruthy orgId then
    let o := orgId.getD ""
    let s1 := kvSet s (Key.userOrg uid) (Val.vStr o)
    kvSet s1 (Key.orgUsers o) (Val.vIds (getIds s1 (Key.orgUsers o) ++ [uid]))
  else s

/-- The body of a `POST /signup` request. -/
structure SignupReq where
  email : String
  name : String
  organizationName : Option String := none
  inviteCode : Option String := none
  role : Option String := none
deriving DecidableEq, Repr

/-- Outcome of a signup (the auth-provider `createUser` call is assumed
to succeed; its fresh user id is the `freshUid` parameter). -/
inductive SignupRes where
  | invalidCode
  | ok (userId : String) (orgId : Option String)
deriving DecidableEq, Repr

/-- `POST /signup`.  `freshUid` is the id minted by the auth provider,
`freshOrgId` the generated org id, `now` the current time (ms) and
`nowIso` the `toISOString()` stamp. -/
def signup (s : Store) (r : SignupReq) (freshUid freshOrgId : String)
    (now : Nat) (nowIso : String) : Store × SignupRes :=
  if strTruthy r.inviteCode then
    match (scanCodes s).find? (inviteValid (r.inviteCode.getD "") now) with
    | none => (s, SignupRes.invalidCode)
    | some vc =>
      let s1 := kvSet s (Key.inviteCodes vc.id)
        (Val.vCode { vc with currentUses := vc.currentUses + 1 })
      let u : UserRec :=
        { id := freshUid, email := r.email, name := r.name,
          role := "staff", orgId := vc.orgId, createdAt := nowIso }
      let s2 := kvSet s1 (Key.users freshUid) (Val.vUser u)
      (finishOrg s2 vc.orgId freshUid, SignupRes.ok freshUid vc.orgId)
  else if strTruthy r.organizationName then
    let org : OrgRec :=
      { id := freshOrgId, name := r.organizationName.getD "",
        createdAt := nowIso, createdBy := freshUid }
    let s1 := kvSet s (Key.organizations freshOrgId) (Val.vOrg org)
    let u : UserRec :=
      { id := freshUid, email := r.email, name := r.name,
        role := "admin", orgId := some freshOrgId, createdAt := nowIso }
    let s2 := kvSet s1 (Key.users freshUid) (Val.vUser u)
    (finishOrg s2 (some freshOrgId) freshUid, SignupRes.ok freshUid (some freshOrgId))
  else
    let u : UserRec :=
      { id := freshUid, email := r.email, name := r.name,
        role := r.role.getD "staff", orgId := none, createdAt := nowIso }
    (kvSet s (Key.users freshUid) (Val.vUser u), SignupRes.ok freshUid none)

/-- `POST /invite-codes` (admin only).  `expiresInDays` and `maxUses`
come from the body; `codeStr`/`freshCodeId` are the generated random
code and id. -/
def createCode (s : Store) (auth : Option String) (expiresInDays : Option Int)
    (maxUses : Option Nat) (freshCodeId codeStr : String) (now : Nat)
    (nowIso : String) : Store × Nat :=
  match auth with
  | none => (s, 401)
  | some uid =>
    match getUser s uid with
    | none => (s, 500)
    | some cu =>
      if cu.role != "admin" then (s, 403)
      else
        let expiresAt : Option Nat :=
          match expiresInDays with
          | some d => if d > 0 then some (now + d.toNat * 86400000) else none
          | none => none
        let mu : Option Nat :=
          match maxUses with
          | some m => if m == 0 then none else some m
          | none => none
        let ic : InviteRec :=
          { id := freshCodeId, code := codeStr,
            orgId := cu.orgId, createdBy := uid, createdAt := nowIso,
            expiresAt := expiresAt, maxUses := mu, currentUses := 0,
            isActive := true }
        let s1 := kvSet s (Key.inviteCodes freshCodeId) (Val.vCode ic)
        let okey := Key.orgCodes (interp cu.orgId)
        (kvSet s1 okey (Val.vIds (getIds s1 okey ++ [freshCodeId])), 200)

/-- `PUT /invite-codes/:codeId/toggle` (admin only, same org). -/
def toggleCode (s : Store) (auth : Option String) (codeId : String) : Store × Nat :=
  match auth with
  | none => (s, 401)
  | some uid =>
    match getUser s uid with
    | none => (s, 500)
    | some cu =>
      if cu.role != "admin" then (s, 403)
      else
        match getCode s codeId with
        | none => (s, 404)
        | some ic =>
          if ic.orgId != cu.orgId then (s, 403)
          else
            (kvSet s (Key.inviteCodes codeId)
              (Val.vCode { ic with isActive := !ic.isActive }), 200)

/-- `DELETE /invite-codes/:codeId` (admin only, same org). -/
def deleteCode (s : Store) (auth : Option String) (codeId : String) : Store × Nat :=
  match auth with
  | none => (s, 401)
  | some uid =>
    match getUser s uid with
    | none => (s, 500)
    | some cu =>
      if cu.role != "admin" then (s, 403)
      else
        match getCode s codeId with
        | none => (s, 404)
        | some ic =>
          if ic.orgId != cu.orgId then (s, 403)
          else
            let s1 := kvDel s (Key.inviteCodes codeId)
            let okey := Key.orgCodes (interp cu.orgId)
            (kvSet s1 okey
              (Val.vIds ((getIds s1 okey).filter (fun i => i != codeId))), 200)

/-- The body of the user-update routes; each field is present or not
(`orgId` may also be present with an explicit `null`). -/
structure UserUpdates where
  email : Option String := none
  name : Option String := none
  role : Option String := none
  orgId : Option (Option String) := none
  createdAt : Option String := none
deriving DecidableEq, Repr

/-- The JS spread `{...record, ...updates}` on a user record. -/
def applyUserUpdates (u : UserRec) (up : UserUpdates) : UserRec :=
  { id := u.id, email := up.email.getD u.email, name := up.name.getD u.name,
    role := up.role.getD u.role, orgId := up.orgId.getD u.orgId,
    createdAt := up.createdAt.getD u.createdAt }

/-- `PUT /users/me`: merge the payload, then force `id`, `role` and
`orgId` back to the stored values. -/
def updateMe (s : Store) (auth : Option String) (up : UserUpdates) : Store × Nat :=
  match auth with
  | none => (s, 401)
  | some uid =>
    match getUser s uid with
    | none => (s, 404)
    | some cu =>
      let nu :=
        { applyUserUpdates cu up with
          id := uid, role := cu.role, orgId := cu.orgId }
      (kvSet s (Key.users uid) (Val.vUser nu), 200)

/-- `PUT /users/:userId` (admin only): merge the payload, forcing only
`id` back. -/
def updateUser (s : Store) (auth : Option String) (targetId : String)
    (up : UserUpdates) : Store × Nat :=
  match auth with
  | none => (s, 401)
  | some uid =>
    match getUser s uid with
    | none => (s, 500)
    | some cu =>
      if cu.role != "admin" then (s, 403)
      else
        match getUser s targetId with
        | none => (s, 404)
        | some tu =>
          let nu := { applyUserUpdates tu up with id := targetId }
          (kvSet s (Key.users targetId) (Val.vUser nu), 200)

/-- `DELETE /users/:userId` (admin only, self-delete blocked): deletes
`users:{userId}` and then filters the target's id out of the list under
the literal key `orgs:${targetUser.orgId}:users`. -/
def deleteUser (s : Store) (auth : Option String) (targetId : String) : Store × Nat :=
  match auth with
  | none => (s, 401)
  | some uid =>
    match getUser s uid with
    | none => (s, 500)
    | some cu =>
      if cu.role != "admin" then (s, 403)
      else if targetId == uid then (s, 400)
      else
        match getUser s targetId with
        | none => (s, 404)
        | some tu =>
          let s1 := kvDel s (Key.users targetId)
          let s2 :=
            if strTruthy tu.orgId then
              let okey := Key.orgsUsersAlt (tu.orgId.getD "")
              kvSet s1 okey
                (Val.vIds ((getIds s1 okey).filter (fun i => i != targetId)))
            else s1
          (s2, 200)

/-- Modelled from the spec: `kv.mget` (multi-get of the adapter, not
among the sources) returns the stored records for a list of ids with
missing ids dropped (spec §4.2: "batchGet(ids) → list of records"). -/
def mgetProjects (s : Store) (ids : List String) : List ProjectRec :=
  ids.filterMap (fun i => getProject s i)

/-- Result of `GET /projects`. -/
inductive ProjectsRes where
  | unauthorized
  | serverError
  | listing (ps : List ProjectRec)
deriving DecidableEq, Repr

/-- `GET /projects`: admins get the whole `org-projects` index, staff
only the projects whose `assignedUsers` contains their id. -/
def getProjects (s : Store) (auth : Option String) : ProjectsRes :=
  match auth with
  | none => ProjectsRes.unauthorized
  | some uid =>
    match getUser s uid with
    | none => ProjectsRes.serverError
    | some cu =>
      if !(strTruthy cu.orgId) then ProjectsRes.listing []
      else
        let ids := getIds s (Key.orgProjects (interp cu.orgId))
        let ps := mgetProjects s ids
        if cu.role == "staff" then
          ProjectsRes.listing (ps.filter (fun p => p.assignedUsers.contains uid))
        else ProjectsRes.listing ps

/-- `POST /projects` (admin only). -/
def createProject (s : Store) (auth : Option String) (name desc : String)
    (assigned : List String) (freshId : String) (nowIso : String) : Store × Nat :=
  match auth with
  | none => (s, 401)
  | some uid =>
    match getUser s uid with
    | none => (s, 500)
    | some cu =>
      if cu.role != "admin" then (s, 403)
      else
        let p : ProjectRec :=
          { id := freshId, name := name, description := desc,
            orgId := cu.orgId, assignedUsers := assigned,
            createdAt := nowIso, createdBy := uid }
        let s1 := kvSet s (Key.projects freshId) (Val.vProject p)
        let okey := Key.orgProjects (interp cu.orgId)
        (kvSet s1 okey (Val.vIds (getIds s1 okey ++ [freshId])), 200)

/-- The body of `PUT /projects/:projectId`. -/
structure ProjectUpdates where
  name : Option String := none
  description : Option String := none
  orgId : Option (Option String) := none
  assignedUsers : Option (List String) := none
  createdAt : Option String := none
  createdBy : Option String := none
deriving DecidableEq, Repr

/-- The JS spread `{...project, ...updates}`. -/
def applyProjectUpdates (p : ProjectRec) (up : ProjectUpdates) : ProjectRec :=
  { id := p.id, name := up.name.getD p.name,
    description := up.description.getD p.description,
    orgId := up.orgId.getD p.orgId,
    assignedUsers := up.assignedUsers.getD p.assignedUsers,
    createdAt := up.createdAt.getD p.createdAt,
    createdBy := up.createdBy.getD p.createdBy }

/-- `PUT /projects/:projectId` (admin only). -/
def updateProject (s : Store) (auth : Option String) (pid : String)
    (up : ProjectUpdates) : Store × Nat :=
  match auth with
  | none => (s, 401)
  | some uid =>
    match getUser s uid with
    | none => (s, 500)
    | some cu =>
      if cu.role != "admin" then (s, 403)
      else
        match getProject s pid with
        | none => (s, 404)
        | some p =>
          let np := { applyProjectUpdates p up with id := pid }
          (kvSet s (Key.projects pid) (Val.vProject np), 200)

/-- `DELETE /projects/:projectId` (admin only); the index filter runs on
`org-projects:${currentUser.orgId}` whatever org the project belongs to. -/
def deleteProject (s : Store) (auth : Option String) (pid : String) : Store × Nat :=
  match auth with
  | none => (s, 401)
  | some uid =>
    match getUser s uid with
    | none => (s, 500)
    | some cu =>
      if cu.role != "admin" then (s, 403)
      else
        match getProject s pid with
        | none => (s, 404)
        | some _ =>
          let s1 := kvDel s (Key.projects pid)
          let okey := Key.orgProjects (interp cu.orgId)
          (kvSet s1 okey
            (Val.vIds ((getIds s1 okey).filter (fun i => i != pid))), 200)

/-- The body of `POST /timesheets`. -/
structure TsBody where
  projectId : String
  taskName : String
  startTime : String
  endTime : String
  duration : Int
  notes : String
  beforePhotoUrl : Option String := none
  afterPhotoUrl : Option String := none
deriving DecidableEq, Repr

/-- `x || null` on an optional string field. -/
def normUrl (o : Option String) : Option String :=
  if strTruthy o then o else none

/-- `POST /timesheets`: the record's `userId` is the caller's id. -/
def createTimesheet (s : Store) (auth : Option String) (b : TsBody)
    (freshId : String) (nowIso : String) : Store × Nat :=
  match auth with
  | none => (s, 401)
  | some uid =>
    let t : TimesheetRec :=
      { id := freshId, userId := uid, projectId := b.projectId,
        taskName := b.taskName, startTime := b.startTime,
        endTime := b.endTime, duration := b.duration, notes := b.notes,
        beforePhotoUrl := normUrl b.beforePhotoUrl,
        afterPhotoUrl := normUrl b.afterPhotoUrl, createdAt := nowIso }
    let s1 := kvSet s (Key.timesheets freshId) (Val.vTimesheet t)
    let ukey := Key.userTimesheets uid
    (kvSet s1 ukey (Val.vIds (getIds s1 ukey ++ [freshId])), 200)

/-- The body of `PUT /timesheets/:timesheetId`; any `userId` the caller
sends is merged and then overwritten with the caller's id. -/
structure TsUpdates where
  userId : Option String := none
  projectId : Option String := none
  taskName : Option String := none
  startTime : Option String := none
  endTime : Option String := none
  duration : Option Int := none
  notes : Option String := none
  beforePhotoUrl : Option (Option String) := none
  afterPhotoUrl : Option (Option String) := none
  createdAt : Option String := none
deriving DecidableEq, Repr

/-- The JS spread `{...timesheet, ...updates}`. -/
def applyTsUpdates (t : TimesheetRec) (up : TsUpdates) : TimesheetRec :=
  { id := t.id, userId := up.userId.getD t.userId,
    projectId := up.projectId.getD t.projectId,
    taskName := up.taskName.getD t.taskName,
    startTime := up.startTime.getD t.startTime,
    endTime := up.endTime.getD t.endTime,
    duration := up.duration.getD t.duration,
    notes := up.notes.getD t.notes,
    beforePhotoUrl := up.beforePhotoUrl.getD t.beforePhotoUrl,
    afterPhotoUrl := up.afterPhotoUrl.getD t.afterPhotoUrl,
    createdAt := up.createdAt.getD t.createdAt }

/-- `PUT /timesheets/:timesheetId` (owner only; `id` and `userId` are
forced back after the merge). -/
def updateTimesheet (s : Store) (auth : Option String) (tid : String)
    (up : TsUpdates) : Store × Nat :=
  match auth with
  | none => (s, 401)
  | some uid =>
    match getTs s tid with
    | none => (s, 404)
    | some t =>
      if t.userId != uid then (s, 403)
      else
        let nt := { applyTsUpdates t up with id := tid, userId := uid }
        (kvSet s (Key.timesheets tid) (Val.vTimesheet nt), 200)

/-- `DELETE /timesheets/:timesheetId` (owner only): delete the record,
then filter the id out of the caller's `user-timesheets` index. -/
def deleteTimesheet (s : Store) (auth : Option String) (tid : String) : Store × Nat :=
  match auth with
  | none => (s, 401)
  | some uid =>
    match getTs s tid with
    | none => (s, 404)
    | some t =>
      if t.userId != uid then (s, 403)
      else
        let s1 := kvDel s (Key.timesheets tid)
        let ukey := Key.userTimesheets uid
        (kvSet s1 ukey
          (Val.vIds ((getIds s1 ukey).filter (fun i => i != tid))), 200)

/-- `GET /test-database` (debug route): writes the probe value under the
generated key `test-key-{Date.now()}`, reads it back and prefix-scans
(reads only), then deletes the key again.  `stamp` is the `Date.now()`
value; the generated key suffix is passed as `tk`. -/
def testDatabase (s : Store) (tk : String) (stamp : Nat) : Store :=
  let s1 := kvSet s (Key.testKey tk)
    (Val.vTest { message := "Hello from test", timestamp := stamp })
  kvDel s1 (Key.testKey tk)

/-- One mutating request to the server: every route of the source that
performs a `kv.set` or `kv.del` — the thirteen entity routes plus the
`GET /test-database` debug route, which writes and then deletes only its
own `test-key-…` probe key.  (All other GET routes and `POST
/upload-photo` read the store or talk to object storage only; they
perform no store writes.) -/
inductive Req where
  | rSignup (r : SignupReq) (freshUid freshOrgId : String) (now : Nat) (nowIso : String)
  | rCreateCode (auth : Option String) (expiresInDays : Option Int)
      (maxUses : Option Nat) (freshCodeId codeStr : String) (now : Nat) (nowIso : String)
  | rToggleCode (auth : Option String) (codeId : String)
  | rDeleteCode (auth : Option String) (codeId : String)
  | rUpdateMe (auth : Option String) (up : UserUpdates)
  | rUpdateUser (auth : Option String) (target : String) (up : UserUpdates)
  | rDeleteUser (auth : Option String) (target : String)
  | rCreateProject (auth : Option String) (name desc : String)
      (assigned : List String) (freshId nowIso : String)
  | rUpdateProject (auth : Option String) (pid : String) (up : ProjectUpdates)
  | rDeleteProject (auth : Option String) (pid : String)
  | rCreateTimesheet (auth : Option String) (b : TsBody) (freshId nowIso : String)
  | rUpdateTimesheet (auth : Option String) (tid : String) (up : TsUpdates)
  | rDeleteTimesheet (auth : Option String) (tid : String)
  | rTestDatabase (tk : String) (stamp : Nat)

/-- The store after serving one request. -/
def step (s : Store) : Req → Store
  | .rSignup r fu fo now iso => (signup s r fu fo now iso).1
  | .rCreateCode a d m cid cstr now iso => (createCode s a d m cid cstr now iso).1
  | .rToggleCode a cid => (toggleCode s a cid).1
  | .rDeleteCode a cid => (deleteCode s a cid).1
  | .rUpdateMe a up => (updateMe s a up).1
  | .rUpdateUser a t up => (updateUser s a t up).1
  | .rDeleteUser a t => (deleteUser s a t).1
  | .rCreateProject a n d asg fid iso => (createProject s a n d asg fid iso).1
  | .rUpdateProject a pid up => (updateProject s a pid up).1
  | .rDeleteProject a pid => (deleteProject s a pid).1
  | .rCreateTimesheet a b fid iso => (createTimesheet s a b fid iso).1
  | .rUpdateTimesheet a tid up => (updateTimesheet s a tid up).1
  | .rDeleteTimesheet a tid => (deleteTimesheet s a tid).1
  | .rTestDatabase tk stamp => testDatabase s tk stamp

/-- Freshness of server-generated ids: a `Date.now()`-plus-random id of
a create route does not collide with an existing record. -/
def reqFresh (s : Store) : Req → Prop
  | .rCreateTimesheet _ _ fid _ => kvGet s (Key.timesheets fid) = none
  | _ => True

/-- Fixture: the admin of `orgA`. -/
def uAdminA : UserRec :=
  { id := "a1", email := "a@x", name := "A", role := "admin",
    orgId := some "orgA", createdAt := "t0" }

/-- Fixture: a staff member of `orgA`. -/
def uStaffA : UserRec :=
  { id := "u2", email := "u@x", name := "U", role := "staff",
    orgId := some "orgA", createdAt := "t0" }

/-- Fixture store: `orgA` with its two users indexed in `org-users:orgA`. -/
def storeA : Store :=
  [(Key.users "a1", Val.vUser uAdminA),
   (Key.users "u2", Val.vUser uStaffA),
   (Key.orgUsers "orgA", Val.vIds ["a1", "u2"])]

/-- Fixture: a fresh invite code for `orgA` (2 uses allowed, none taken,
active, expires at time 2000). -/
def icFresh : InviteRec :=
  { id := "c1", code := "CODEA", orgId := some "orgA", createdBy := "a1",
    createdAt := "t0", expiresAt := some 2000, maxUses := some 2,
    currentUses := 0, isActive := true }

/-- Fixture store: `storeA` plus the fresh invite code `c1`. -/
def storeB : Store :=
  [(Key.users "a1", Val.vUser uAdminA),
   (Key.users "u2", Val.vUser uStaffA),
   (Key.orgUsers "orgA", Val.vIds ["a1", "u2"]),
   (Key.inviteCodes "c1", Val.vCode icFresh),
   (Key.orgCodes "orgA", Val.vIds ["c1"])]

/-- Fixture: an exhausted invite code (`maxUses = 1`, `currentUses = 1`). -/
def icUsedUp : InviteRec :=
  { id := "c2", code := "CODEB", orgId := some "orgA", createdBy := "a1",
    createdAt := "t0", expiresAt := none, maxUses := some 1,
    currentUses := 1, isActive := true }

/-- Fixture store: `storeA` plus only the exhausted code `c2`. -/
def storeC : Store :=
  [(Key.users "a1", Val.vUser uAdminA),
   (Key.users "u2", Val.vUser uStaffA),
   (Key.orgUsers "orgA", Val.vIds ["a1", "u2"]),
   (Key.inviteCodes "c2", Val.vCode icUsedUp)]

/-- Fixture: a signup joining via the fresh code, asking for `admin`. -/
def reqInvite : SignupReq :=
  { email := "n@x", name := "N", inviteCode := some "CODEA",
    role := some "admin" }

/-- Fixture: a signup presenting the exhausted code. -/
def reqInviteB : SignupReq :=
  { email := "m@x", name := "M", inviteCode := some "CODEB" }

/-- Fixture: a signup with neither invite code nor organization name,
asking for the `admin` role. -/
def reqNoOrg : SignupReq :=
  { email := "q@x", name := "Q", role := some "admin" }

/-- Fixture: a project of `orgA` assigned to the staff user only. -/
def projP1 : ProjectRec :=
  { id := "p1", name := "P1", description := "", orgId := some "orgA",
    assignedUsers := ["u2"], createdAt := "t0", createdBy := "a1" }

/-- Fixture: a project of `orgA` assigned to nobody. -/
def projP2 : ProjectRec :=
  { id := "p2", name := "P2", description := "", orgId := some "orgA",
    assignedUsers := [], createdAt := "t0", createdBy := "a1" }

/-- Fixture store: `orgA` users plus the two projects and their index. -/
def storeP : Store :=
  [(Key.users "a1", Val.vUser uAdminA),
   (Key.users "u2", Val.vUser uStaffA),
   (Key.orgUsers "orgA", Val.vIds ["a1", "u2"]),
   (Key.projects "p1", Val.vProject projP1),
   (Key.projects "p2", Val.vProject projP2),
   (Key.orgProjects "orgA", Val.vIds ["p1", "p2"])]

/-- Fixture: a timesheet entry owned by the staff user. -/
def tsT1 : TimesheetRec :=
  { id := "ts1", userId := "u2", projectId := "p1", taskName := "task",
    startTime := "2024-01-01T08:00:00Z", endTime := "2024-01-01T09:30:00Z",
    duration := 90, notes := "", beforePhotoUrl := none,
    afterPhotoUrl := none, createdAt := "t0" }

/-- Fixture store: `orgA` users plus one timesheet and its index. -/
def storeT : Store :=
  [(Key.users "a1", Val.vUser uAdminA),
   (Key.users "u2", Val.vUser uStaffA),
   (Key.orgUsers "orgA", Val.vIds ["a1", "u2"]),
   (Key.timesheets "ts1", Val.vTimesheet tsT1),
   (Key.userTimesheets "u2", Val.vIds ["ts1"])]

theorem kvGet_eq_none_of_not_has (s : Store) (k : Key) (h : kvHas s k = false) :
    kvGet s k = none := by
  induction s with
  | nil => rfl
  | cons e es ih =>
    simp only [kvHas, Bool.or_eq_false_iff, decide_eq_false_iff_not] at h
    simp only [kvGet, if_neg h.1]
    exact ih h.2

theorem kvGet_replace (s : Store) (k k' : Key) (v : Val) :
    kvGet (kvReplace s k v) k' =
      if k' = k then (if kvHas s k then some v else none) else kvGet s k' := by
  induction s with
  | nil => simp [kvReplace, kvGet, kvHas]
  | cons e es ih =>
    by_cases h1 : e.1 = k
    · by_cases h2 : k' = k
      · subst h2; simp [kvReplace, kvGet, kvHas, h1]
      · simp [kvReplace, kvGet, kvHas, h1, h2, ih, Ne.symm h2]
    · by_cases h2 : k' = k
      · subst h2
        simp [kvReplace, kvGet, kvHas, h1, ih, Ne.symm h1]
      · by_cases h3 : e.1 = k'
        · simp [kvReplace, kvGet, kvHas, h1, h2, h3]
        · simp [kvReplace, kvGet, kvHas, h1, h2, h3, ih]

theorem kvGet_append_single (s : Store) (k k' : Key) (v : Val) :
    kvGet (s ++ [(k, v)]) k' =
      match kvGet s k' with
      | some w => some w
      | none => if k' = k then some v else none := by
  induction s with
  | nil => simp [kvGet, eq_comm]
  | cons e es ih =>
    simp only [List.cons_append, kvGet]
    by_cases h : e.1 = k'
    · simp [h]
    · simp [h, ih]

/-- The basic store law: reading after an upsert. -/
theorem kvGet_set (s : Store) (k k' : Key) (v : Val) :
    kvGet (kvSet s k v) k' = if k' = k then some v else kvGet s k' := by
  unfold kvSet
  by_cases hh : kvHas s k
  · rw [if_pos hh, kvGet_replace]
    by_cases h2 : k' = k
    · simp [h2, hh]
    · simp [h2]
  · rw [if_neg hh, kvGet_append_single]
    by_cases h2 : k' = k
    · subst h2
      rw [kvGet_eq_none_of_not_has _ _ (by simpa using hh)]
    · cases h3 : kvGet s k' <;> simp [h2]

/-- Reading after a delete. -/
theorem kvGet_del (s : Store) (k k' : Key) :
    kvGet (kvDel s k) k' = if k' = k then none else kvGet s k' := by
  induction s with
  | nil => simp [kvDel, kvGet]
  | cons e es ih =>
    by_cases h2 : k' = k
    · subst h2
      by_cases h1 : e.1 = k'
      · simp [kvDel, h1, ih]
      · simp [kvDel, kvGet, h1, ih]
    · by_cases h1 : e.1 = k
      · have h3 : ¬e.1 = k' := fun hh => h2 (hh.symm.trans h1)
        have h4 : ¬k = k' := fun hh => h2 hh.symm
        simp [kvDel, kvGet, h1, h2, h3, h4, ih]
      · by_cases h3 : e.1 = k'
        · simp [kvDel, kvGet, h1, h2, h3, ih]
        · simp [kvDel, kvGet, h1, h2, h3, ih]

theorem getUser_set_ne (s : Store) (k : Key) (v : Val) (id : String)
    (h : ¬k = Key.users id) : getUser (kvSet s k v) id = getUser s id := by
  unfold getUser
  rw [kvGet_set, if_neg (fun hh => h hh.symm)]

theorem getUser_del_ne (s : Store) (k : Key) (id : String)
    (h : ¬k = Key.users id) : getUser (kvDel s k) id = getUser s id := by
  unfold getUser
  rw [kvGet_del, if_neg (fun hh => h hh.symm)]

theorem getUser_set_self (s : Store) (id : String) (u : UserRec) :
    getUser (kvSet s (Key.users id) (Val.vUser u)) id = some u := by
  unfold getUser
  rw [kvGet_set, if_pos rfl]

theorem getCode_set_ne (s : Store) (k : Key) (v : Val) (id : String)
    (h : ¬k = Key.inviteCodes id) : getCode (kvSet s k v) id = getCode s id := by
  unfold getCode
  rw [kvGet_set, if_neg (fun hh => h hh.symm)]

theorem getCode_set_self (s : Store) (id : String) (c : InviteRec) :
    getCode (kvSet s (Key.inviteCodes id) (Val.vCode c)) id = some c := by
  unfold getCode
  rw [kvGet_set, if_pos rfl]

theorem getTs_set_ne (s : Store) (k : Key) (v : Val) (id : String)
    (h : ¬k = Key.timesheets id) : getTs (kvSet s k v) id = getTs s id := by
  unfold getTs
  rw [kvGet_set, if_neg (fun hh => h hh.symm)]

theorem getTs_del_ne (s : Store) (k : Key) (id : String)
    (h : ¬k = Key.timesheets id) : getTs (kvDel s k) id = getTs s id := by
  unfold getTs
  rw [kvGet_del, if_neg (fun hh => h hh.symm)]

theorem getTs_set_self (s : Store) (id : String) (t : TimesheetRec) :
    getTs (kvSet s (Key.timesheets id) (Val.vTimesheet t)) id = some t := by
  unfold getTs
  rw [kvGet_set, if_pos rfl]

theorem getTs_del_self (s : Store) (id : String) :
    getTs (kvDel s (Key.timesheets id)) id = none := by
  unfold getTs
  rw [kvGet_del, if_pos rfl]

theorem getProject_set_ne (s : Store) (k : Key) (v : Val) (id : String)
    (h : ¬k = Key.projects id) : getProject (kvSet s k v) id = getProject s id := by
  unfold getProject
  rw [kvGet_set, if_neg (fun hh => h hh.symm)]

theorem getIds_set_ne (s : Store) (k k' : Key) (v : Val)
    (h : ¬k = k') : getIds (kvSet s k v) k' = getIds s k' := by
  unfold getIds
  rw [kvGet_set, if_neg (fun hh => h hh.symm)]

theorem getIds_del_ne (s : Store) (k k' : Key)
    (h : ¬k = k') : getIds (kvDel s k) k' = getIds s k' := by
  unfold getIds
  rw [kvGet_del, if_neg (fun hh => h hh.symm)]

theorem getIds_set_self (s : Store) (k : Key) (l : List String) :
    getIds (kvSet s k (Val.vIds l)) k = l := by
  unfold getIds
  rw [kvGet_set, if_pos rfl]

/-- `finishOrg` never touches a `users:` record. -/
theorem getUser_finishOrg (s : Store) (o : Option String) (uid id : String) :
    getUser (finishOrg s o uid) id = getUser s id := by
  unfold finishOrg
  split
  · rw [getUser_set_ne _ _ _ _ (by simp), getUser_set_ne _ _ _ _ (by simp)]
  · rfl

/-- `finishOrg` never touches an `invite-codes:` record. -/
theorem getCode_finishOrg (s : Store) (o : Option String) (uid id : String) :
    getCode (finishOrg s o uid) id = getCode s id := by
  unfold finishOrg
  split
  · rw [getCode_set_ne _ _ _ _ (by simp), getCode_set_ne _ _ _ _ (by simp)]
  · rfl

/-- `finishOrg` never touches a `timesheets:` record. -/
theorem getTs_finishOrg (s : Store) (o : Option String) (uid id : String) :
    getTs (finishOrg s o uid) id = getTs s id := by
  unfold finishOrg
  split
  · rw [getTs_set_ne _ _ _ _ (by simp), getTs_set_ne _ _ _ _ (by simp)]
  · rfl

/-- C1: `DELETE /users/:userId` deletes the `users:{userId}` record but
filters the id out of the key `orgs:{orgId}:users`, which no other route
reads or writes; the `org-users:{orgId}` index that signup appends to is
left untouched, so the deleted id dangles there.  Evaluated at the
failing input: admin `a1` of `orgA` deletes staff user `u2`. -/
theorem C1_delete_user_leaves_org_users_dangling :
    (deleteUser storeA (some "a1") "u2").2 = 200 ∧
    getUser (deleteUser storeA (some "a1") "u2").1 "u2" = none ∧
    "u2" ∈ getIds (deleteUser storeA (some "a1") "u2").1 (Key.orgUsers "orgA") ∧
    getIds (deleteUser storeA (some "a1") "u2").1 (Key.orgsUsersAlt "orgA") = [] := by
  decide

/-- C2, counterexample: on `storeA` the admin `a1` PUTs its own user id
with a `role` field; the handler has no self-role-change check, so the
stored role changes from `admin` to `staff`, contradicting the claim. -/
theorem C2_self_role_change_applies :
    (getUser storeA "a1").map UserRec.role = some "admin" ∧
    (getUser (updateUser storeA (some "a1") "a1"
        { role := some "staff" }).1 "a1").map UserRec.role = some "staff" := by
  decide

/-- C2 (amended): for an authenticated admin caller, `DELETE
/users/{userId}` on the caller's own id is rejected with 400 and leaves
the store untouched; but `PUT /users/{userId}` on the caller's own id
applies a `role` field from the payload like any other admin update —
self-role-change is not blocked on this route (only `PUT /users/me`
preserves `role`/`orgId`). -/
theorem C2_self_delete_blocked_put_role_applied (s : Store) (uid r : String)
    (cu : UserRec) (up : UserUpdates)
    (hcu : getUser s uid = some cu) (hadmin : cu.role = "admin")
    (hrole : up.role = some r) :
    deleteUser s (some uid) uid = (s, 400) ∧
    (getUser (updateUser s (some uid) uid up).1 uid).map UserRec.role = some r := by
  constructor
  · simp [deleteUser, hcu, hadmin]
  · simp [updateUser, hcu, hadmin, applyUserUpdates, hrole, getUser_set_self]

/-- Witness for the amended C2 at the concrete store `storeA`. -/
theorem C2_self_guards_witness :
    deleteUser storeA (some "a1") "a1" = (storeA, 400) ∧
    (getUser (updateUser storeA (some "a1") "a1"
        { role := some "staff" }).1 "a1").map UserRec.role = some "staff" :=
  C2_self_delete_blocked_put_role_applied storeA "a1" "staff" uAdminA
    { role := some "staff" } (by decide) rfl rfl

/-- C3: when the signup's invite-code lookup finds a valid code record
`vc` (active, unexpired, uses left, matching code string), the created
user record has `orgId` equal to the code's `orgId` and role `staff`,
whatever `role` the request body carried. -/
theorem C3_invite_signup_forces_staff_org (s : Store) (r : SignupReq)
    (fu fo : String) (now : Nat) (iso : String) (vc : InviteRec)
    (ht : strTruthy r.inviteCode = true)
    (hfind : (scanCodes s).find? (inviteValid (r.inviteCode.getD "") now) = some vc) :
    getUser (signup s r fu fo now iso).1 fu =
      some { id := fu, email := r.email, name := r.name, role := "staff",
             orgId := vc.orgId, createdAt := iso } := by
  simp only [signup, ht, if_true, hfind]
  rw [getUser_finishOrg, getUser_set_self]

/-- Witness for C3: the fixture signup presents code `CODEA` asking for
role `admin`; the stored record is `staff` in `orgA`. -/
theorem C3_invite_signup_witness :
    getUser (signup storeB reqInvite "u9" "o9" 1000 "t1").1 "u9" =
      some { id := "u9", email := "n@x", name := "N", role := "staff",
             orgId := some "orgA", createdAt := "t1" } :=
  C3_invite_signup_forces_staff_org storeB reqInvite "u9" "o9" 1000 "t1"
    icFresh (by decide) (by decide)

/-- C4: presenting invite code `codeStr` at signup: (1) if the lookup
redeems a code record `vc`, the stored record's `currentUses` afterwards
is `vc.currentUses + 1`; (2) if every stored code with that code string
is inactive, expired, or exhausted (`maxUses` set positive and reached),
the signup returns the invalid-code error and the store is unchanged —
no user or index write happens.  (`createCode` normalises `maxUses = 0`
to `null`, see `createCode_never_stores_maxUses_zero`, so stored limits
are positive.) -/
theorem C4_redemption_increment_and_refusal (s : Store) (r : SignupReq)
    (fu fo : String) (now : Nat) (iso : String) (codeStr : String)
    (hts : r.inviteCode = some codeStr) (hne : codeStr ≠ "") :
    (∀ vc : InviteRec,
      (scanCodes s).find? (inviteValid codeStr now) = some vc →
      getCode (signup s r fu fo now iso).1 vc.id =
        some { vc with currentUses := vc.currentUses + 1 }) ∧
    ((∀ c ∈ scanCodes s, c.code = codeStr →
        c.isActive = false ∨ (∃ e, c.expiresAt = some e ∧ e ≤ now) ∨
        (∃ m, c.maxUses = some m ∧ 0 < m ∧ m ≤ c.currentUses)) →
      signup s r fu fo now iso = (s, SignupRes.invalidCode)) := by
  have ht : strTruthy r.inviteCode = true := by
    simp [strTruthy, hts, hne]
  have hgd : r.inviteCode.getD "" = codeStr := by simp [hts]
  constructor
  · intro vc hfind
    simp only [signup, ht, if_true, hgd, hfind]
    rw [getCode_finishOrg, getCode_set_ne _ _ _ _ (by simp), getCode_set_self]
  · intro hall
    have hnone : (scanCodes s).find? (inviteValid codeStr now) = none := by
      rw [List.find?_eq_none]
      intro c hc
      simp only [inviteValid, Bool.and_eq_true, beq_iff_eq, Bool.not_eq_true]
      intro hcontra
      obtain ⟨⟨⟨hcode, hact⟩, hexp⟩, huse⟩ := hcontra
      rcases hall c hc hcode with h1 | ⟨e, he, hle⟩ | ⟨m, hm, hmpos, hmle⟩
      · rw [h1] at hact; exact Bool.false_ne_true hact
      · rw [notExpired, he] at hexp
        simp only [decide_eq_true_eq] at hexp
        omega
      · rw [hasUsesLeft, hm] at huse
        simp only [Bool.or_eq_true, beq_iff_eq, decide_eq_true_eq] at huse
        omega
    simp [signup, ht, hgd, hnone]

/-- Supporting fact for C4's exhaustion clause: `POST /invite-codes`
stores `maxUses || null`, so a stored limit is never `0`. -/
theorem createCode_never_stores_maxUses_zero (s : Store) (auth : Option String)
    (d : Option Int) (m : Option Nat) (cid cstr : String) (now : Nat)
    (iso : String) (ic : InviteRec)
    (h : getCode (createCode s auth d m cid cstr now iso).1 cid = some ic)
    (hnew : getCode s cid = none) :
    ic.maxUses ≠ some 0 := by
  cases auth with
  | none =>
    simp only [createCode] at h
    rw [hnew] at h
    exact absurd h (by simp)
  | some uid =>
    cases hcu : getUser s uid with
    | none =>
      simp only [createCode, hcu] at h
      rw [hnew] at h
      exact absurd h (by simp)
    | some cu =>
      simp only [createCode, hcu] at h
      by_cases hrole : cu.role != "admin"
      · rw [if_pos hrole] at h
        rw [hnew] at h
        exact absurd h (by simp)
      · rw [if_neg hrole] at h
        rw [getCode_set_ne _ _ _ _ (by simp), getCode_set_self] at h
        cases h
        cases m with
        | none => simp
        | some mv =>
          by_cases hm : mv == 0
          · simp [hm]
          · simp [hm]
            intro hc
            simp only [beq_iff_eq] at hm
            exact hm hc

/-- Witness for C4: on `storeB` the fresh code `c1` is redeemed and its
use count goes 0 → 1; on `storeC` the exhausted code `CODEB` is refused
and the store is unchanged. -/
theorem C4_redemption_witness :
    getCode (signup storeB reqInvite "u9" "o9" 1000 "t1").1 "c1" =
      some { icFresh with currentUses := 1 } ∧
    signup storeC reqInviteB "u9" "o9" 1000 "t1" = (storeC, SignupRes.invalidCode) := by
  constructor
  · exact (C4_redemption_increment_and_refusal storeB reqInvite "u9" "o9" 1000 "t1"
      "CODEA" rfl (by decide)).1 icFresh (by decide)
  · refine (C4_redemption_increment_and_refusal storeC reqInviteB "u9" "o9" 1000 "t1"
      "CODEB" rfl (by decide)).2 ?_
    intro c hc hcode
    have hs : scanCodes storeC = [icUsedUp] := rfl
    rw [hs] at hc
    have hceq : c = icUsedUp := List.mem_singleton.mp hc
    subst hceq
    exact Or.inr (Or.inr ⟨1, rfl, Nat.one_pos, Nat.le_refl 1⟩)

/-- C5: for a caller with a stored profile in an org, `GET /projects`
returns: for role `staff`, only projects whose `assignedUsers` contains
the caller's id; for role `admin`, exactly the records of the caller's
`org-projects` index (missing ids dropped by the modelled multi-get). -/
theorem C5_project_listing (s : Store) (uid : String) (cu : UserRec)
    (l : List ProjectRec)
    (hcu : getUser s uid = some cu) (horg : strTruthy cu.orgId = true)
    (hl : getProjects s (some uid) = ProjectsRes.listing l) :
    (cu.role = "staff" → ∀ p ∈ l, uid ∈ p.assignedUsers) ∧
    (cu.role = "admin" →
      l = mgetProjects s (getIds s (Key.orgProjects (interp cu.orgId)))) := by
  simp only [getProjects, hcu, horg, Bool.not_true, Bool.false_eq_true,
    if_false] at hl
  constructor
  · intro hstaff p hp
    rw [hstaff] at hl
    simp only [beq_self_eq_true, if_true, ProjectsRes.listing.injEq] at hl
    rw [← hl] at hp
    have hmem := List.mem_filter.mp hp
    simpa using hmem.2
  · intro hadmin
    rw [hadmin] at hl
    simp only [ProjectsRes.listing.injEq, show (("admin" == "staff")) = false from rfl,
      Bool.false_eq_true, if_false] at hl
    exact hl.symm

/-- Witness for C5 on `storeP`: staff `u2` sees exactly the project it
is assigned to; admin `a1` gets the whole `org-projects:orgA` set. -/
theorem C5_project_listing_witness :
    "u2" ∈ projP1.assignedUsers ∧
    mgetProjects storeP (getIds storeP (Key.orgProjects (interp uAdminA.orgId))) =
      [projP1, projP2] := by
  constructor
  · exact (C5_project_listing storeP "u2" uStaffA [projP1]
      (by decide) (by decide) (by decide)).1 rfl projP1 (by simp)
  · have h := (C5_project_listing storeP "a1" uAdminA [projP1, projP2]
      (by decide) (by decide) (by decide)).2 rfl
    exact h.symm.trans (by decide)

/-- C6: `DELETE /timesheets/:timesheetId` on an existing timesheet `t`:
if the caller owns it, afterwards the record is gone, the id is absent
from the caller's `user-timesheets` index, and the status is 200; if the
authenticated caller is not the owner, the result is 403 with the store
(record and indexes) unchanged. -/
theorem C6_timesheet_delete (s : Store) (uid tid : String) (t : TimesheetRec)
    (ht : getTs s tid = some t) :
    (t.userId = uid →
      getTs (deleteTimesheet s (some uid) tid).1 tid = none ∧
      tid ∉ getIds (deleteTimesheet s (some uid) tid).1 (Key.userTimesheets uid) ∧
      (deleteTimesheet s (some uid) tid).2 = 200) ∧
    (t.userId ≠ uid → deleteTimesheet s (some uid) tid = (s, 403)) := by
  constructor
  · intro hown
    simp only [deleteTimesheet, ht, hown, bne_self_eq_false, Bool.false_eq_true,
      if_false]
    refine ⟨?_, ?_, by trivial⟩
    · rw [getTs_set_ne _ _ _ _ (by simp), getTs_del_self]
    · rw [getIds_set_self]
      intro hmem
      have := (List.mem_filter.mp hmem).2
      simp at this
  · intro hnot
    simp only [deleteTimesheet, ht]
    rw [if_pos (by simp [bne_iff_ne, hnot])]

/-- Witness for C6 on `storeT`: owner `u2` deletes `ts1` (record and
index entry gone, 200); non-owner `a1` gets 403 with the store intact. -/
theorem C6_timesheet_delete_witness :
    (getTs (deleteTimesheet storeT (some "u2") "ts1").1 "ts1" = none ∧
      "ts1" ∉ getIds (deleteTimesheet storeT (some "u2") "ts1").1
        (Key.userTimesheets "u2") ∧
      (deleteTimesheet storeT (some "u2") "ts1").2 = 200) ∧
    deleteTimesheet storeT (some "a1") "ts1" = (storeT, 403) := by
  constructor
  · exact (C6_timesheet_delete storeT "u2" "ts1" tsT1 (by decide)).1 rfl
  · exact (C6_timesheet_delete storeT "a1" "ts1" tsT1 (by decide)).2 (by decide)

/-- C7: `PUT /users/me` merges the payload into the stored profile but
forces `id`, `role` and `orgId` back to the stored values: the resulting
record keeps `role` and `orgId` unchanged while `email`, `name` and
`createdAt` take the payload's values when present. -/
theorem C7_update_me_preserves_role_org (s : Store) (uid : String)
    (cu : UserRec) (up : UserUpdates)
    (hcu : getUser s uid = some cu) :
    getUser (updateMe s (some uid) up).1 uid =
      some { id := uid, email := up.email.getD cu.email,
             name := up.name.getD cu.name, role := cu.role,
             orgId := cu.orgId, createdAt := up.createdAt.getD cu.createdAt } := by
  simp only [updateMe, hcu, applyUserUpdates]
  rw [getUser_set_self]

/-- Witness for C7: staff `u2` sends a payload renaming itself to `Z`
with `role := admin` and a new org; the stored record keeps role `staff`
and `orgA`, while the name is merged. -/
theorem C7_update_me_witness :
    getUser (updateMe storeA (some "u2")
        { name := some "Z", role := some "admin", orgId := some (some "orgX") }).1 "u2" =
      some { id := "u2", email := "u@x", name := "Z", role := "staff",
             orgId := some "orgA", createdAt := "t0" } :=
  C7_update_me_preserves_role_org storeA "u2" uStaffA
    { name := some "Z", role := some "admin", orgId := some (some "orgX") } (by decide)

/-- C9: toggling an invite code twice (admin of the code's org both
times) stores back exactly the original record. -/
theorem C9_toggle_twice_restores (s : Store) (uid codeId : String)
    (cu : UserRec) (ic : InviteRec)
    (hcu : getUser s uid = some cu) (hadmin : cu.role = "admin")
    (hic : getCode s codeId = some ic) (horg : ic.orgId = cu.orgId) :
    getCode (toggleCode (toggleCode s (some uid) codeId).1 (some uid) codeId).1
      codeId = some ic := by
  have hstep : ∀ (st : Store) (c : InviteRec), getUser st uid = some cu →
      getCode st codeId = some c → c.orgId = cu.orgId →
      (toggleCode st (some uid) codeId).1 =
        kvSet st (Key.inviteCodes codeId)
          (Val.vCode { c with isActive := !c.isActive }) := by
    intro st c h1 h2 h3
    simp [toggleCode, h1, hadmin, h2, h3]
  rw [hstep s ic hcu hic horg]
  rw [hstep _ { ic with isActive := !ic.isActive }
      (by rw [getUser_set_ne _ _ _ _ (by simp)]; exact hcu)
      (getCode_set_self _ _ _) (by simpa using horg)]
  rw [getCode_set_self]
  cases ic
  simp

/-- Witness for C9 on `storeB`: toggling `c1` twice yields the original
record (still active, same uses). -/
theorem C9_toggle_twice_witness :
    getCode (toggleCode (toggleCode storeB (some "a1") "c1").1 (some "a1") "c1").1
      "c1" = some icFresh :=
  C9_toggle_twice_restores storeB "a1" "c1" uAdminA icFresh
    (by decide) rfl (by decide) rfl

/-- C10: a signup with neither a (truthy) invite code nor an organization
name stores a user with `orgId` null and the caller-supplied `role`
(default `staff`) — the public route performs no authorization check on
the requested role. -/
theorem C10_no_org_signup_stores_requested_role (s : Store) (r : SignupReq)
    (fu fo : String) (now : Nat) (iso : String)
    (hic : strTruthy r.inviteCode = false)
    (hon : strTruthy r.organizationName = false) :
    getUser (signup s r fu fo now iso).1 fu =
      some { id := fu, email := r.email, name := r.name,
             role := r.role.getD "staff", orgId := none, createdAt := iso } ∧
    (signup s r fu fo now iso).2 = SignupRes.ok fu none := by
  simp only [signup, hic, hon, Bool.false_eq_true, if_false]
  exact ⟨getUser_set_self _ _ _, by trivial⟩

/-- Witness for C10: the fixture signup asks for role `admin` and gets
it stored, with `orgId` null. -/
theorem C10_no_org_signup_witness :
    getUser (signup storeA reqNoOrg "u7" "o7" 1000 "t1").1 "u7" =
      some { id := "u7", email := "q@x", name := "Q", role := "admin",
             orgId := none, createdAt := "t1" } ∧
    (signup storeA reqNoOrg "u7" "o7" 1000 "t1").2 = SignupRes.ok "u7" none :=
  C10_no_org_signup_stores_requested_role storeA reqNoOrg "u7" "o7" 1000 "t1"
    rfl rfl

theorem getTs_signup (s : Store) (r : SignupReq) (fu fo : String)
    (now : Nat) (iso : String) (tid : String) :
    getTs (signup s r fu fo now iso).1 tid = getTs s tid := by
  unfold signup
  repeat' split
  all_goals first
    | rfl
    | (dsimp only
       rw [getTs_finishOrg, getTs_set_ne _ _ _ _ (by simp),
         getTs_set_ne _ _ _ _ (by simp)])
    | (dsimp only
       rw [getTs_set_ne _ _ _ _ (by simp)])

theorem getTs_createCode (s : Store) (a : Option String) (d : Option Int)
    (m : Option Nat) (cid cstr : String) (now : Nat) (iso tid : String) :
    getTs (createCode s a d m cid cstr now iso).1 tid = getTs s tid := by
  unfold createCode
  repeat' split
  all_goals first
    | rfl
    | (dsimp only
       rw [getTs_set_ne _ _ _ _ (by simp), getTs_set_ne _ _ _ _ (by simp)])

theorem getTs_toggleCode (s : Store) (a : Option String) (cid tid : String) :
    getTs (toggleCode s a cid).1 tid = getTs s tid := by
  unfold toggleCode
  repeat' split
  all_goals first
    | rfl
    | (dsimp only
       rw [getTs_set_ne _ _ _ _ (by simp)])

theorem getTs_deleteCode (s : Store) (a : Option String) (cid tid : String) :
    getTs (deleteCode s a cid).1 tid = getTs s tid := by
  unfold deleteCode
  repeat' split
  all_goals first
    | rfl
    | (dsimp only
       rw [getTs_set_ne _ _ _ _ (by simp), getTs_del_ne _ _ _ (by simp)])

theorem getTs_updateMe (s : Store) (a : Option String) (up : UserUpdates)
    (tid : String) :
    getTs (updateMe s a up).1 tid = getTs s tid := by
  unfold updateMe
  repeat' split
  all_goals first
    | rfl
    | (dsimp only
       rw [getTs_set_ne _ _ _ _ (by simp)])

theorem getTs_updateUser (s : Store) (a : Option String) (target : String)
    (up : UserUpdates) (tid : String) :
    getTs (updateUser s a target up).1 tid = getTs s tid := by
  unfold updateUser
  repeat' split
  all_goals first
    | rfl
    | (dsimp only
       rw [getTs_set_ne _ _ _ _ (by simp)])

theorem getTs_deleteUser (s : Store) (a : Option String) (target tid : String) :
    getTs (deleteUser s a target).1 tid = getTs s tid := by
  unfold deleteUser
  repeat' split
  all_goals first
    | rfl
    | (dsimp only
       rw [getTs_set_ne _ _ _ _ (by simp), getTs_del_ne _ _ _ (by simp)])
    | (dsimp only
       rw [getTs_del_ne _ _ _ (by simp)])

theorem getTs_createProject (s : Store) (a : Option String) (n d : String)
    (asg : List String) (fid iso tid : String) :
    getTs (createProject s a n d asg fid iso).1 tid = getTs s tid := by
  unfold createProject
  repeat' split
  all_goals first
    | rfl
    | (dsimp only
       rw [getTs_set_ne _ _ _ _ (by simp), getTs_set_ne _ _ _ _ (by simp)])

theorem getTs_updateProject (s : Store) (a : Option String) (pid : String)
    (up : ProjectUpdates) (tid : String) :
    getTs (updateProject s a pid up).1 tid = getTs s tid := by
  unfold updateProject
  repeat' split
  all_goals first
    | rfl
    | (dsimp only
       rw [getTs_set_ne _ _ _ _ (by simp)])

theorem getTs_deleteProject (s : Store) (a : Option String) (pid tid : String) :
    getTs (deleteProject s a pid).1 tid = getTs s tid := by
  unfold deleteProject
  repeat' split
  all_goals first
    | rfl
    | (dsimp only
       rw [getTs_set_ne _ _ _ _ (by simp), getTs_del_ne _ _ _ (by simp)])

theorem createTimesheet_userId_frame (s : Store) (a : Option String) (b : TsBody)
    (fid iso tid : String) (t t' : TimesheetRec)
    (hfresh : kvGet s (Key.timesheets fid) = none)
    (h1 : getTs s tid = some t)
    (h2 : getTs (createTimesheet s a b fid iso).1 tid = some t') :
    t'.userId = t.userId := by
  unfold createTimesheet at h2
  cases a with
  | none => rw [h1] at h2; cases h2; rfl
  | some uid =>
    dsimp only at h2
    rw [getTs_set_ne _ _ _ _ (by simp)] at h2
    by_cases heq : tid = fid
    · subst heq
      unfold getTs at h1
      rw [hfresh] at h1
      cases h1
    · rw [getTs_set_ne _ _ _ _
        (by simp only [Key.timesheets.injEq]; exact fun hh => heq hh.symm)] at h2
      rw [h1] at h2; cases h2; rfl

theorem updateTimesheet_userId_frame (s : Store) (a : Option String)
    (tid0 : String) (up : TsUpdates) (tid : String) (t t' : TimesheetRec)
    (h1 : getTs s tid = some t)
    (h2 : getTs (updateTimesheet s a tid0 up).1 tid = some t') :
    t'.userId = t.userId := by
  unfold updateTimesheet at h2
  cases a with
  | none => rw [h1] at h2; cases h2; rfl
  | some uid =>
    cases ht0 : getTs s tid0 with
    | none =>
      simp only [ht0] at h2
      rw [h1] at h2; cases h2; rfl
    | some t0 =>
      simp only [ht0] at h2
      by_cases hown : t0.userId != uid
      · rw [if_pos hown] at h2
        dsimp only at h2
        rw [h1] at h2; cases h2; rfl
      · rw [if_neg hown] at h2
        dsimp only at h2
        by_cases heq : tid = tid0
        · subst heq
          rw [getTs_set_self] at h2
          cases h2
          rw [ht0] at h1
          cases h1
          simp only [bne_iff_ne, ne_eq, not_not] at hown
          exact hown.symm
        · rw [getTs_set_ne _ _ _ _
            (by simp only [Key.timesheets.injEq]; exact fun hh => heq hh.symm)] at h2
          rw [h1] at h2; cases h2; rfl

theorem deleteTimesheet_userId_frame (s : Store) (a : Option String)
    (tid0 tid : String) (t t' : TimesheetRec)
    (h1 : getTs s tid = some t)
    (h2 : getTs (deleteTimesheet s a tid0).1 tid = some t') :
    t'.userId = t.userId := by
  unfold deleteTimesheet at h2
  cases a with
  | none => rw [h1] at h2; cases h2; rfl
  | some uid =>
    cases ht0 : getTs s tid0 with
    | none =>
      simp only [ht0] at h2
      rw [h1] at h2; cases h2; rfl
    | some t0 =>
      simp only [ht0] at h2
      by_cases hown : t0.userId != uid
      · rw [if_pos hown] at h2
        dsimp only at h2
        rw [h1] at h2; cases h2; rfl
      · rw [if_neg hown] at h2
        dsimp only at h2
        rw [getTs_set_ne _ _ _ _ (by simp)] at h2
        by_cases heq : tid = tid0
        · subst heq
          rw [getTs_del_self] at h2
          cases h2
        · rw [getTs_del_ne _ _ _
            (by simp only [Key.timesheets.injEq]; exact fun hh => heq hh.symm)] at h2
          rw [h1] at h2; cases h2; rfl

theorem getTs_testDatabase (s : Store) (tk : String) (stamp : Nat)
    (tid : String) :
    getTs (testDatabase s tk stamp) tid = getTs s tid := by
  unfold testDatabase
  rw [getTs_del_ne _ _ _ (by simp), getTs_set_ne _ _ _ _ (by simp)]

/-- C8: across every mutating route of the server, a stored timesheet's
`userId` never changes: if `timesheets:{tid}` holds `t` before a request
and `t'` after it, then `t'.userId = t.userId` (creation ids are assumed
fresh, `reqFresh`).  `PUT /timesheets/:id` is owner-only and overwrites
`userId` with the caller's id, and no other route — including the
`GET /test-database` probe, which writes and deletes only its own
`test-key-…` key — writes a `timesheets:` key. -/
theorem C8_timesheet_userId_immutable (s : Store) (q : Req) (tid : String)
    (t t' : TimesheetRec) (hf : reqFresh s q)
    (h1 : getTs s tid = some t) (h2 : getTs (step s q) tid = some t') :
    t'.userId = t.userId := by
  cases q with
  | rSignup r fu fo now iso =>
    rw [step, getTs_signup, h1] at h2; cases h2; rfl
  | rCreateCode a d m cid cstr now iso =>
    rw [step, getTs_createCode, h1] at h2; cases h2; rfl
  | rToggleCode a cid =>
    rw [step, getTs_toggleCode, h1] at h2; cases h2; rfl
  | rDeleteCode a cid =>
    rw [step, getTs_deleteCode, h1] at h2; cases h2; rfl
  | rUpdateMe a up =>
    rw [step, getTs_updateMe, h1] at h2; cases h2; rfl
  | rUpdateUser a target up =>
    rw [step, getTs_updateUser, h1] at h2; cases h2; rfl
  | rDeleteUser a target =>
    rw [step, getTs_deleteUser, h1] at h2; cases h2; rfl
  | rCreateProject a n d asg fid iso =>
    rw [step, getTs_createProject, h1] at h2; cases h2; rfl
  | rUpdateProject a pid up =>
    rw [step, getTs_updateProject, h1] at h2; cases h2; rfl
  | rDeleteProject a pid =>
    rw [step, getTs_deleteProject, h1] at h2; cases h2; rfl
  | rCreateTimesheet a b fid iso =>
    exact createTimesheet_userId_frame s a b fid iso tid t t' hf h1 h2
  | rUpdateTimesheet a tid0 up =>
    exact updateTimesheet_userId_frame s a tid0 up tid t t' h1 h2
  | rDeleteTimesheet a tid0 =>
    exact deleteTimesheet_userId_frame s a tid0 tid t t' h1 h2
  | rTestDatabase tk stamp =>
    rw [step, getTs_testDatabase, h1] at h2; cases h2; rfl

/-- Witness for C8: on `storeT`, the owner updates `ts1` sending a
different `userId`; the stored record's `userId` is still `u2`. -/
theorem C8_timesheet_userId_witness :
    (getTs (step storeT (Req.rUpdateTimesheet (some "u2") "ts1"
        { userId := some "a1", taskName := some "other" })) "ts1").map
      TimesheetRec.userId = some tsT1.userId := by
  have h2 : getTs (step storeT (Req.rUpdateTimesheet (some "u2") "ts1"
      { userId := some "a1", taskName := some "other" })) "ts1" =
      some { tsT1 with taskName := "other" } := by decide
  rw [h2]
  exact congrArg some
    (C8_timesheet_userId_immutable storeT
      (Req.rUpdateTimesheet (some "u2") "ts1"
        { userId := some "a1", taskName := some "other" })
      "ts1" tsT1 { tsT1 with taskName := "other" } (by trivial) (by decide) h2)

theorem str_append_ne (p q a b : String) (n : Nat)
    (hp : n < p.data.length) (hq : n < q.data.length)
    (hne : p.data[n]? ≠ q.data[n]?) : p ++ a ≠ q ++ b := by
  intro h
  have hd : p.data ++ a.data = q.data ++ b.data := by
    rw [← String.data_append, ← String.data_append, h]
  have h2 : (p.data ++ a.data)[n]? = (q.data ++ b.data)[n]? := by rw [hd]
  rw [List.getElem?_append_left hp, List.getElem?_append_left hq] at h2
  exact hne h2

theorem str_append_left_cancel (p a b : String) (h : p ++ a = p ++ b) : a = b := by
  have hd : p.data ++ a.data = p.data ++ b.data := by
    rw [← String.data_append, ← String.data_append, h]
  exact String.ext (List.append_cancel_left hd)

theorem str_append_right_cancel (p a b : String) (h : a ++ p = b ++ p) : a = b := by
  have hd : a.data ++ p.data = b.data ++ p.data := by
    rw [← String.data_append, ← String.data_append, h]
  exact String.ext (List.append_cancel_right hd)

/-- The eleven key templates of the source are pairwise disjoint: equal
rendered keys come from equal `Key`s, so the typed store is faithful to
the flat string-keyed store.  (In particular `org-users:{x}` and
`orgs:{y}:users` — see C1 — are never the same key.) -/
theorem Key.render_injective (k1 k2 : Key) (h : k1.render = k2.render) :
    k1 = k2 := by
  cases k1 <;> cases k2 <;> simp only [Key.render] at h <;>
    first
      | (exact congrArg _ (str_append_left_cancel _ _ _ h))
      | (exact congrArg _ (str_append_right_cancel _ _ _
          (str_append_left_cancel _ _ _ h)))
      | (exact absurd h (str_append_ne _ _ _ _ 0 (by decide) (by decide) (by decide)))
      | (exact absurd h (str_append_ne _ _ _ _ 1 (by decide) (by decide) (by decide)))
      | (exact absurd h (str_append_ne _ _ _ _ 3 (by decide) (by decide) (by decide)))
      | (exact absurd h (str_append_ne _ _ _ _ 4 (by decide) (by decide) (by decide)))
      | (exact absurd h (str_append_ne _ _ _ _ 5 (by decide) (by decide) (by decide)))
